import Mathlib

/-!
Shallow embedding of `src/c_src/nif.cpp` (fit-decoder): the Record-message
extraction pipeline.  The FIT SDK itself (`fit::Decode`, the per-field
`IsXValid()/GetX()` getters of `fit::RecordMesg`) is not part of this
repository's sources; where its behaviour decides a claim it is modelled
from the spec (definitions marked "Modelled from the spec").  Everything
else is translated from `nif.cpp`.
-/

/-- The wire/struct base kinds used by `nif.cpp` (struct `RecordData` member
types together with the `FIT_*_INVALID` sentinel each member is compared to). -/
inductive FieldKind where
  | ku8
  | ku16
  | ku32
  | ks8
  | ks32
  | kf32
deriving DecidableEq

/-- Value model for C++ `float` as used by `nif.cpp`: either a NaN (any NaN bit
pattern, including `FIT_FLOAT32_INVALID`) or a finite numeric value.  The code
only ever compares floats for IEEE equality and tests `std::isnan`, so this
abstraction is exact for the comparisons the code performs. -/
inductive F32 where
  | nan : F32
  | fin : ℚ → F32
deriving DecidableEq

/-- `std::isnan`. -/
def F32.isNaN : F32 → Bool
  | .nan => true
  | .fin _ => false

/-- IEEE-754 `==` on floats: a NaN compares unequal to everything, NaN included. -/
def f32Beq : F32 → F32 → Bool
  | .fin a, .fin b => a == b
  | _, _ => false

def FIT_UINT8_INVALID : Nat := 0xFF
def FIT_UINT16_INVALID : Nat := 0xFFFF
def FIT_UINT32_INVALID : Nat := 0xFFFFFFFF
def FIT_SINT8_INVALID : Int := 0x7F
def FIT_SINT32_INVALID : Int := 0x7FFFFFFF
def FIT_DATE_TIME_INVALID : Nat := 0xFFFFFFFF

/-- `FIT_FLOAT32_INVALID` is a reserved NaN bit pattern (`0xFFFFFFFF` as float). -/
def FIT_FLOAT32_INVALID : F32 := .nan

def FIT_MESG_NUM_RECORD : Nat := 20

/-- The field names of struct `RecordData` (`nif.cpp` lines 13-112), which are
also the keys of the emitted Elixir map. -/
inductive FieldName where
  | timestamp
  | altitude
  | distance
  | heart_rate
  | position_lat
  | position_long
  | enhanced_altitude
  | speed
  | enhanced_speed
  | grade
  | vertical_speed
  | gps_accuracy
  | power
  | accumulated_power
  | motor_power
  | left_torque_effectiveness
  | right_torque_effectiveness
  | left_pedal_smoothness
  | right_pedal_smoothness
  | combined_pedal_smoothness
  | cadence
  | cadence256
  | fractional_cadence
  | left_right_balance
  | cycle_length
  | cycle_length16
  | cycles
  | total_cycles
  | vertical_oscillation
  | stance_time
  | stance_time_percent
  | stance_time_balance
  | step_length
  | vertical_ratio
  | calories
  | temperature
  | core_temperature
  | respiration_rate
  | enhanced_respiration_rate
  | current_stress
  | total_hemoglobin_conc
  | total_hemoglobin_conc_min
  | total_hemoglobin_conc_max
  | saturated_hemoglobin_percent
  | saturated_hemoglobin_percent_min
  | saturated_hemoglobin_percent_max
  | battery_soc
  | ebike_travel_range
  | ebike_battery_level
  | ebike_assist_mode
  | ebike_assist_level_percent
  | stroke_type
  | resistance
  | ball_speed
  | depth
  | absolute_pressure
  | next_stop_depth
  | next_stop_time
  | time_to_surface
  | ndl_time
  | cns_load
  | n2_load
  | air_time_remaining
  | ascent_rate
  | po2
  | activity_type
  | device_index
  | zone
  | time128
  | grit
  | flow
  | time_from_course
  | left_pco
  | right_pco
  | pressure_sac
  | volume_sac
  | rmv
deriving DecidableEq

/-- The base kind of each `RecordData` member: `unsigned int` members paired
with `FIT_UINT8/16/32_INVALID`, `int` members paired with `FIT_SINT8/32_INVALID`,
and `float` members paired with `FIT_FLOAT32_INVALID`, exactly as each field is
assigned and filtered in `nif.cpp` (lines 129-609 and 749-1072). -/
@[reducible] def structKind : FieldName → FieldKind
  | .timestamp => .ku32
  | .altitude => .kf32
  | .distance => .kf32
  | .heart_rate => .ku8
  | .position_lat => .ks32
  | .position_long => .ks32
  | .enhanced_altitude => .kf32
  | .speed => .kf32
  | .enhanced_speed => .kf32
  | .grade => .kf32
  | .vertical_speed => .kf32
  | .gps_accuracy => .ku8
  | .power => .ku16
  | .accumulated_power => .ku32
  | .motor_power => .ku16
  | .left_torque_effectiveness => .kf32
  | .right_torque_effectiveness => .kf32
  | .left_pedal_smoothness => .kf32
  | .right_pedal_smoothness => .kf32
  | .combined_pedal_smoothness => .kf32
  | .cadence => .ku8
  | .cadence256 => .kf32
  | .fractional_cadence => .kf32
  | .left_right_balance => .ku8
  | .cycle_length => .kf32
  | .cycle_length16 => .kf32
  | .cycles => .ku8
  | .total_cycles => .ku32
  | .vertical_oscillation => .kf32
  | .stance_time => .kf32
  | .stance_time_percent => .kf32
  | .stance_time_balance => .kf32
  | .step_length => .kf32
  | .vertical_ratio => .kf32
  | .calories => .ku16
  | .temperature => .ks8
  | .core_temperature => .kf32
  | .respiration_rate => .ku8
  | .enhanced_respiration_rate => .kf32
  | .current_stress => .kf32
  | .total_hemoglobin_conc => .kf32
  | .total_hemoglobin_conc_min => .kf32
  | .total_hemoglobin_conc_max => .kf32
  | .saturated_hemoglobin_percent => .kf32
  | .saturated_hemoglobin_percent_min => .kf32
  | .saturated_hemoglobin_percent_max => .kf32
  | .battery_soc => .kf32
  | .ebike_travel_range => .ku16
  | .ebike_battery_level => .ku8
  | .ebike_assist_mode => .ku8
  | .ebike_assist_level_percent => .ku8
  | .stroke_type => .ku8
  | .resistance => .ku8
  | .ball_speed => .kf32
  | .depth => .kf32
  | .absolute_pressure => .ku32
  | .next_stop_depth => .kf32
  | .next_stop_time => .ku32
  | .time_to_surface => .ku32
  | .ndl_time => .ku32
  | .cns_load => .ku8
  | .n2_load => .ku16
  | .air_time_remaining => .ku32
  | .ascent_rate => .kf32
  | .po2 => .kf32
  | .activity_type => .ku8
  | .device_index => .ku8
  | .zone => .ku8
  | .time128 => .kf32
  | .grit => .kf32
  | .flow => .kf32
  | .time_from_course => .kf32
  | .left_pco => .ks8
  | .right_pco => .ks8
  | .pressure_sac => .kf32
  | .volume_sac => .kf32
  | .rmv => .kf32

/-- The Lean carrier of each base kind (`unsigned` members as `Nat`, signed as
`Int`, `float` as `F32`). -/
@[reducible] def KindTy : FieldKind → Type
  | .ku8 => Nat
  | .ku16 => Nat
  | .ku32 => Nat
  | .ks8 => Int
  | .ks32 => Int
  | .kf32 => F32

/-- The `FIT_*_INVALID` sentinel stored in a `RecordData` member when the field
was not valid (the `else` branch of each block of `ProcessRecordMessage`). -/
def invalidOf : (k : FieldKind) → KindTy k
  | .ku8 => FIT_UINT8_INVALID
  | .ku16 => FIT_UINT16_INVALID
  | .ku32 => FIT_UINT32_INVALID
  | .ks8 => FIT_SINT8_INVALID
  | .ks32 => FIT_SINT32_INVALID
  | .kf32 => FIT_FLOAT32_INVALID

/-- The reserved invalid bit pattern of each wire base type (spec section 3 table;
`fit.hpp` constants). -/
def sentinelBits : FieldKind → Nat
  | .ku8 => 0xFF
  | .ku16 => 0xFFFF
  | .ku32 => 0xFFFFFFFF
  | .ks8 => 0x7F
  | .ks32 => 0x7FFFFFFF
  | .kf32 => 0xFFFFFFFF

/-- The per-field emission guard of the output loop (`nif.cpp` lines 757-1069):
integer members are emitted when different from their sentinel; float members
when `!= FIT_FLOAT32_INVALID && !std::isnan`, which under IEEE comparison is
`!std::isnan`. -/
def passFilter : (k : FieldKind) → KindTy k → Bool
  | .ku8, n => n != FIT_UINT8_INVALID
  | .ku16, n => n != FIT_UINT16_INVALID
  | .ku32, n => n != FIT_UINT32_INVALID
  | .ks8, i => i != FIT_SINT8_INVALID
  | .ks32, i => i != FIT_SINT32_INVALID
  | .kf32, x => (!f32Beq x FIT_FLOAT32_INVALID) && !x.isNaN

/-- Whether a stored value is a NaN (only float members can be). -/
def hasNaN : (k : FieldKind) → KindTy k → Bool
  | .kf32, x => x.isNaN
  | .ku8, _ => false
  | .ku16, _ => false
  | .ku32, _ => false
  | .ks8, _ => false
  | .ks32, _ => false

/-- The view of a `fit::RecordMesg` that `ProcessRecordMessage` consumes: for
each field the pair `IsXValid()` / `GetX()` (the SDK getters).  `get` carries
the value of the member's C++ type. -/
structure RecordMesg where
  valid : FieldName → Bool
  get : (f : FieldName) → KindTy (structKind f)

/-- Struct `RecordData` of `nif.cpp`: one slot per member, of the member's C++
type. -/
@[reducible] def RecordData := (f : FieldName) → KindTy (structKind f)

/-- `Listener::ProcessRecordMessage` field decoding (`nif.cpp` 129-603): the
timestamp gets the epoch offset `+ 631065600` in 32-bit `unsigned int`
arithmetic (hence mod `2 ^ 32`) when valid and `FIT_DATE_TIME_INVALID`
otherwise; every other member gets `GetX()` when `IsXValid()` and its
`FIT_*_INVALID` sentinel otherwise. -/
def processRecordMessage (m : RecordMesg) : RecordData := fun f =>
  match f with
  | .timestamp =>
      if m.valid FieldName.timestamp then
        (m.get FieldName.timestamp + 631065600) % 2 ^ 32
      else FIT_DATE_TIME_INVALID
  | f => if m.valid f then m.get f else invalidOf (structKind f)

/-- A message delivered to `Listener::OnMesg`: its message number and (when it
is a Record message) its `fit::RecordMesg` view. -/
structure Mesg where
  num : Nat
  recordMesg : RecordMesg

/-- `Listener::OnMesg` followed by the admission test of `ProcessRecordMessage`
(`nif.cpp` 120-126 and 605-608): Record messages are decoded and pushed onto
`records` exactly when the stored timestamp differs from
`FIT_DATE_TIME_INVALID`. -/
def listenerStep (acc : List RecordData) (m : Mesg) : List RecordData :=
  if m.num = FIT_MESG_NUM_RECORD then
    let data := processRecordMessage m.recordMesg
    if data FieldName.timestamp ≠ FIT_DATE_TIME_INVALID then acc ++ [data] else acc
  else acc

/-- The `records` vector after the decoder has streamed all messages to the
listener, in delivery order. -/
def runListener (ms : List Mesg) : List RecordData := ms.foldl listenerStep []

/-- An emitted Elixir map: for every key either a present value or key absent. -/
@[reducible] def Sample := (f : FieldName) → Option (KindTy (structKind f))

/-- The body of the output loop for one record (`nif.cpp` 751-1069): the
timestamp key is always put; every other key is put exactly when its stored
value passes the sentinel/NaN guard. -/
def emitSample (d : RecordData) : Sample := fun f =>
  match f with
  | .timestamp => some (d FieldName.timestamp)
  | f => if passFilter (structKind f) (d f) then some (d f) else none

/-- The output-list construction (`nif.cpp` 747-1072): iterate the collected
records in reverse (`rbegin` to `rend`) and prepend each emitted map with
`enif_make_list_cell`. -/
def buildResultList (records : List RecordData) : List Sample :=
  records.reverse.foldl (fun acc d => emitSample d :: acc) []

/-- The samples produced for a given delivered message stream. -/
def decodeSamples (ms : List Mesg) : List Sample := buildResultList (runListener ms)

/-- Sign extension of a `w`-bit wire pattern (spec section 4.2 step 4). -/
def toSigned (w : Nat) (bits : Nat) : Int :=
  if bits < 2 ^ (w - 1) then (bits : Int) else (bits : Int) - 2 ^ w

/-- One wire-level field of a Record message: the base type declared by the
definition message, the raw encoded bit pattern, and — for fields whose
engineering representation is a float — the SDK-decoded engineering value
(scale/offset application is the SDK's, out of scope here). -/
structure RawField where
  wkind : FieldKind
  bits : Nat
  dec : F32

/-- A wire-level Record message: for each field either the raw field the device
wrote or `none` when the device omitted it. -/
@[reducible] def RawRecord := FieldName → Option RawField

/-- Modelled from the spec: the SDK's `IsXValid()` (`fit::RecordMesg`, not in
this repository's sources).  Per spec section 4.2 steps 1-2, a field is valid
exactly when it is present in the message and its raw value differs from the
invalid sentinel of its declared base type. -/
def rawFieldValid (r : RawRecord) (f : FieldName) : Bool :=
  match r f with
  | none => false
  | some rf => rf.bits != sentinelBits rf.wkind

/-- Modelled from the spec: the engineering value a wire pattern decodes to
(spec section 4.2 steps 3-4): unsigned values are taken as-is, signed values are
sign-extended, float-represented fields take the SDK-decoded value. -/
def decodeBits : (k : FieldKind) → Nat → F32 → KindTy k
  | .ku8, bits, _ => bits
  | .ku16, bits, _ => bits
  | .ku32, bits, _ => bits
  | .ks8, bits, _ => toSigned 8 bits
  | .ks32, bits, _ => toSigned 32 bits
  | .kf32, _, d => d

/-- Modelled from the spec: the SDK's `GetX()` — the decoded engineering value
of the field, or the member type's invalid constant when the field is absent. -/
def rawFieldGet (r : RawRecord) (f : FieldName) : KindTy (structKind f) :=
  match r f with
  | none => invalidOf (structKind f)
  | some rf => decodeBits (structKind f) rf.bits rf.dec

/-- Modelled from the spec: the `fit::RecordMesg` view of a wire-level Record
message, pairing `IsXValid()` with `GetX()`. -/
def mesgOfRaw (r : RawRecord) : RecordMesg :=
  ⟨rawFieldValid r, rawFieldGet r⟩

/-- Whether a field of a wire-level Record message is present with its declared
base type's invalid sentinel as raw value. -/
def rawIsSentinel (r : RawRecord) (f : FieldName) : Bool :=
  match r f with
  | none => false
  | some rf => rf.bits == sentinelBits rf.wkind

/-- The byte stream handed to the SDK (`std::stringstream` built from the input
binary): the buffer contents and the current read position. -/
structure FitStream where
  data : List Nat
  pos : Nat

/-- What remains to be read from the stream's current position. -/
def streamRest (s : FitStream) : List Nat := s.data.drop s.pos

/-- Modelled from the spec: the behaviour of the SDK `fit::Decode` object on
the bytes it reads (spec section 4.1; `fit_decode.hpp` is not in this
repository's sources).  `integrity` is `CheckIntegrity`'s verdict as a function
of the bytes read, `integrityAdvance` how far that validation pass moved the
stream position, and `readMesgs` the messages `Read` delivers to the listener
together with whether `Read` threw a `fit::RuntimeException`. -/
structure FitSDK where
  integrity : List Nat → Bool
  integrityAdvance : List Nat → Nat
  readMesgs : List Nat → List Mesg × Bool

/-- The value `decode_fit_file_nif` returns to the caller: one of the two error
atoms, or the list of emitted samples. -/
inductive DecodeResult where
  | error_integrity_check_failed
  | error_sdk_exception
  | ok (samples : List Sample)

/-- The `decode.Read(fit_stream, listener)` phase and result conversion of
`decode_fit_file_nif` (`nif.cpp` 639-644 and 646-1074): on a
`fit::RuntimeException` the `error_sdk_exception` atom is returned and the
listener's accumulated records are discarded; otherwise the collected records
are converted to the output list. -/
def readPass (sdk : FitSDK) (s : FitStream) : DecodeResult :=
  let r := sdk.readMesgs (streamRest s)
  if r.2 then DecodeResult.error_sdk_exception
  else DecodeResult.ok (buildResultList (runListener r.1))

/-- `decode_fit_file_nif` (`nif.cpp` 613-1075): integrity check first
(returning the `error_integrity_check_failed` atom on failure, without reading
any message), then `fit_stream.clear(); fit_stream.seekg(0, std::ios::beg)`,
then the read pass. -/
def decode_fit_file_nif (sdk : FitSDK) (buf : List Nat) : DecodeResult :=
  let s0 : FitStream := ⟨buf, 0⟩
  if !(sdk.integrity (streamRest s0)) then DecodeResult.error_integrity_check_failed
  else
    let s1 : FitStream := ⟨s0.data, sdk.integrityAdvance (streamRest s0)⟩
    let s2 : FitStream := ⟨s1.data, 0⟩
    readPass sdk s2

/-- The value at key `f` of the `i`-th map of an output list (`none` when the
key is absent or the list is shorter). -/
def lookupAt (l : List Sample) (i : Nat) (f : FieldName) :
    Option (KindTy (structKind f)) :=
  match l.get? i with
  | none => none
  | some s => s f

/-- A `fit::RecordMesg` view in which only the timestamp is valid, with
`GetTimestamp() = t`; every other getter reports invalid. -/
def tsOnlyMesg (t : Nat) : RecordMesg where
  valid := fun f => f == FieldName.timestamp
  get := fun f =>
    match f with
    | .timestamp => t
    | f => invalidOf (structKind f)

/-- The wire-level Record message of the spec's scenario: raw timestamp
`1000000000` and `heart_rate` present at its `0xFF` sentinel, every other
field omitted by the device. -/
def scenarioRaw : RawRecord := fun f =>
  if f = FieldName.timestamp then some ⟨.ku32, 1000000000, F32.nan⟩
  else if f = FieldName.heart_rate then some ⟨.ku8, 0xFF, F32.nan⟩
  else none

/-- The scenario message as delivered to the listener. -/
def scenarioMesg : Mesg := ⟨FIT_MESG_NUM_RECORD, mesgOfRaw scenarioRaw⟩

/-- The sample the scenario message emits. -/
def scenarioSample : Sample := emitSample (processRecordMessage (mesgOfRaw scenarioRaw))

theorem foldl_emit_prepend (l : List RecordData) (acc : List Sample) :
    l.foldl (fun a d => emitSample d :: a) acc = (l.map emitSample).reverse ++ acc := by
  induction l generalizing acc with
  | nil => simp
  | cons d l ih => simp [ih]

theorem buildResultList_eq_map (l : List RecordData) :
    buildResultList l = l.map emitSample := by
  unfold buildResultList
  rw [foldl_emit_prepend, List.append_nil, List.map_reverse, List.reverse_reverse]

theorem tsOK_of_mem_foldl {P : RecordData → Prop}
    (hP : ∀ m : RecordMesg, processRecordMessage m FieldName.timestamp ≠ FIT_DATE_TIME_INVALID →
      P (processRecordMessage m))
    (ms : List Mesg) :
    ∀ acc, (∀ d ∈ acc, P d) → ∀ d ∈ ms.foldl listenerStep acc, P d := by
  induction ms with
  | nil => intro acc h; simpa using h
  | cons m ms ih =>
      intro acc h
      rw [List.foldl_cons]
      refine ih _ ?_
      intro d hd
      unfold listenerStep at hd
      split at hd
      · dsimp only at hd
        split at hd
        · rename_i hts
          rcases List.mem_append.mp hd with h1 | h1
          · exact h d h1
          · rcases List.mem_singleton.mp h1 with rfl
            exact hP _ hts
        · exact h d hd
      · exact h d hd

theorem mem_runListener_ts {ms : List Mesg} {d : RecordData}
    (hd : d ∈ runListener ms) : d FieldName.timestamp ≠ FIT_DATE_TIME_INVALID := by
  revert hd
  refine fun hd => tsOK_of_mem_foldl (P := fun d => d FieldName.timestamp ≠ FIT_DATE_TIME_INVALID)
    (fun m h => h) ms [] (by simp) d hd

theorem exists_of_mem_decodeSamples {ms : List Mesg} {s : Sample}
    (hs : s ∈ decodeSamples ms) : ∃ d, d ∈ runListener ms ∧ s = emitSample d := by
  unfold decodeSamples at hs
  rw [buildResultList_eq_map] at hs
  obtain ⟨d, hd, hde⟩ := List.mem_map.mp hs
  exact ⟨d, hd, hde.symm⟩

theorem passFilter_invalidOf (k : FieldKind) : passFilter k (invalidOf k) = false := by
  cases k <;> rfl

theorem hasNaN_false_of_passFilter :
    ∀ {k : FieldKind} {v : KindTy k}, passFilter k v = true → hasNaN k v = false := by
  intro k v h
  cases k with
  | kf32 =>
      cases v with
      | nan => exact Bool.noConfusion h
      | fin q => rfl
  | ku8 => rfl
  | ku16 => rfl
  | ku32 => rfl
  | ks8 => rfl
  | ks32 => rfl

theorem passFilter_false_of_hasNaN :
    ∀ {k : FieldKind} {v : KindTy k}, hasNaN k v = true → passFilter k v = false := by
  intro k v h
  cases k with
  | kf32 =>
      cases v with
      | nan => rfl
      | fin q => exact Bool.noConfusion h
  | ku8 => exact Bool.noConfusion h
  | ku16 => exact Bool.noConfusion h
  | ku32 => exact Bool.noConfusion h
  | ks8 => exact Bool.noConfusion h
  | ks32 => exact Bool.noConfusion h

theorem emitSample_timestamp (d : RecordData) :
    emitSample d FieldName.timestamp = some (d FieldName.timestamp) := rfl

theorem emitSample_ne_timestamp (d : RecordData) (f : FieldName)
    (hf : f ≠ FieldName.timestamp) :
    emitSample d f = if passFilter (structKind f) (d f) then some (d f) else none := by
  cases f <;> first | exact absurd rfl hf | rfl

theorem processRecordMessage_timestamp (m : RecordMesg) :
    processRecordMessage m FieldName.timestamp =
      if m.valid FieldName.timestamp then (m.get FieldName.timestamp + 631065600) % 2 ^ 32
      else FIT_DATE_TIME_INVALID := rfl

theorem processRecordMessage_ne_timestamp (m : RecordMesg) (f : FieldName)
    (hf : f ≠ FieldName.timestamp) :
    processRecordMessage m f = if m.valid f then m.get f else invalidOf (structKind f) := by
  cases f <;> first | exact absurd rfl hf | rfl

theorem rawFieldValid_false_of_sentinel {r : RawRecord} {f : FieldName}
    (h : rawIsSentinel r f = true) : rawFieldValid r f = false := by
  unfold rawIsSentinel at h
  unfold rawFieldValid
  cases hrf : r f with
  | none => rfl
  | some rf => rw [hrf] at h; simp_all [bne]

theorem decodeSamples_single (mr : RecordMesg) :
    decodeSamples [Mesg.mk FIT_MESG_NUM_RECORD mr] =
      if processRecordMessage mr FieldName.timestamp = FIT_DATE_TIME_INVALID then []
      else [emitSample (processRecordMessage mr)] := by
  unfold decodeSamples runListener
  rw [List.foldl_cons, List.foldl_nil]
  unfold listenerStep
  rw [if_pos rfl]
  by_cases h : processRecordMessage mr FieldName.timestamp = FIT_DATE_TIME_INVALID
  · rw [if_neg (by simpa using h), if_pos h]
    rfl
  · rw [if_pos h, if_neg h]
    rfl

def sdkReject : FitSDK := ⟨fun _ => false, fun _ => 0, fun _ => ([], false)⟩

def sdkThrow : FitSDK := ⟨fun _ => true, fun _ => 0, fun _ => ([], true)⟩

def sdkAccept : FitSDK := ⟨fun _ => true, fun _ => 0, fun _ => ([], false)⟩

/-- C1: every emitted RecordSample carries the `timestamp` key, with a value
different from the `FIT_DATE_TIME_INVALID` sentinel; a sample whose stored
timestamp resolved to the sentinel is never part of the output. -/
theorem C1_every_sample_has_valid_timestamp {ms : List Mesg} {s : Sample}
    (hs : s ∈ decodeSamples ms) :
    ∃ t : Nat, s FieldName.timestamp = some t ∧ t ≠ FIT_DATE_TIME_INVALID := by
  obtain ⟨d, hd, rfl⟩ := exists_of_mem_decodeSamples hs
  exact ⟨d FieldName.timestamp, rfl, mem_runListener_ts hd⟩

/-- Witness for C1 at the spec scenario input. -/
theorem C1_every_sample_has_valid_timestamp_witness :
    scenarioSample ∈ decodeSamples [scenarioMesg] ∧
      ∃ t : Nat, scenarioSample FieldName.timestamp = some t ∧ t ≠ FIT_DATE_TIME_INVALID := by
  have hmem : scenarioSample ∈ decodeSamples [scenarioMesg] := List.Mem.head _
  exact ⟨hmem, C1_every_sample_has_valid_timestamp hmem⟩

/-- C2 counterexample: a Record message whose timestamp field did not end up
absent (the getter pair reports it valid, with raw value
`2 ^ 32 - 1 - 631065600`), yet the sample is dropped, so "dropped exactly when
the timestamp ended up absent" is false on the code. -/
theorem C2_admission_counterexample :
    (tsOnlyMesg (2 ^ 32 - 1 - 631065600)).valid FieldName.timestamp = true ∧
      decodeSamples [Mesg.mk FIT_MESG_NUM_RECORD (tsOnlyMesg (2 ^ 32 - 1 - 631065600))] = [] :=
  ⟨rfl, rfl⟩

/-- C2 amended: a Record message's sample is dropped exactly when the stored
post-offset timestamp equals `FIT_DATE_TIME_INVALID`; an absent timestamp
always stores the sentinel (hence always drops), and any message whose stored
timestamp differs from the sentinel is emitted, whatever the other fields
(timestamp-only samples included). -/
theorem C2_admission_amended (m : RecordMesg) :
    (decodeSamples [Mesg.mk FIT_MESG_NUM_RECORD m] =
        if processRecordMessage m FieldName.timestamp = FIT_DATE_TIME_INVALID then []
        else [emitSample (processRecordMessage m)]) ∧
      (m.valid FieldName.timestamp = false →
        processRecordMessage m FieldName.timestamp = FIT_DATE_TIME_INVALID) := by
  refine ⟨decodeSamples_single m, fun h => ?_⟩
  rw [processRecordMessage_timestamp, h]
  simp

/-- C3: a field whose raw wire value equals the invalid sentinel of its
declared base type is absent from any sample the message emits, never present
holding the sentinel. -/
theorem C3_raw_sentinel_field_absent {r : RawRecord} {f : FieldName} {s : Sample}
    (hsent : rawIsSentinel r f = true)
    (hs : s ∈ decodeSamples [Mesg.mk FIT_MESG_NUM_RECORD (mesgOfRaw r)]) :
    s f = none := by
  have hvalid : rawFieldValid r f = false := rawFieldValid_false_of_sentinel hsent
  rw [decodeSamples_single] at hs
  by_cases hts : processRecordMessage (mesgOfRaw r) FieldName.timestamp = FIT_DATE_TIME_INVALID
  · rw [if_pos hts] at hs
    exact absurd hs (List.not_mem_nil s)
  · rw [if_neg hts] at hs
    rcases List.mem_singleton.mp hs with rfl
    by_cases hf : f = FieldName.timestamp
    · exfalso
      apply hts
      rw [processRecordMessage_timestamp]
      have hv : (mesgOfRaw r).valid FieldName.timestamp = false := hf ▸ hvalid
      rw [hv]
      simp
    · rw [emitSample_ne_timestamp _ _ hf, processRecordMessage_ne_timestamp _ _ hf]
      have hv : (mesgOfRaw r).valid f = false := hvalid
      rw [hv]
      simp [passFilter_invalidOf]

/-- Witness for C3: in the spec scenario, `heart_rate` is present at its 0xFF
sentinel and the emitted sample has no `heart_rate` key. -/
theorem C3_raw_sentinel_field_absent_witness :
    rawIsSentinel scenarioRaw FieldName.heart_rate = true ∧
      scenarioSample ∈ decodeSamples [scenarioMesg] ∧
      scenarioSample FieldName.heart_rate = none := by
  have h1 : rawIsSentinel scenarioRaw FieldName.heart_rate = true := rfl
  have hmem : scenarioSample ∈ decodeSamples [scenarioMesg] := List.Mem.head _
  exact ⟨h1, hmem, C3_raw_sentinel_field_absent h1 hmem⟩

/-- C4: no emitted mapping holds a NaN under any key, and a stored NaN in a
float-typed member always surfaces as key-absent. -/
theorem C4_no_nan_in_output :
    (∀ (ms : List Mesg) (s : Sample) (f : FieldName) (v : KindTy (structKind f)),
        s ∈ decodeSamples ms → s f = some v → hasNaN (structKind f) v = false) ∧
      (∀ (d : RecordData) (f : FieldName),
        hasNaN (structKind f) (d f) = true → emitSample d f = none) := by
  constructor
  · intro ms s f v hs hv
    obtain ⟨d, hd, rfl⟩ := exists_of_mem_decodeSamples hs
    by_cases hf : f = FieldName.timestamp
    · subst hf
      rfl
    · rw [emitSample_ne_timestamp _ _ hf] at hv
      by_cases hp : passFilter (structKind f) (d f) = true
      · rw [if_pos hp] at hv
        rcases Option.some.inj hv with rfl
        exact hasNaN_false_of_passFilter hp
      · rw [if_neg hp] at hv
        exact Option.noConfusion hv
  · intro d f h
    by_cases hf : f = FieldName.timestamp
    · subst hf
      exact Bool.noConfusion h
    · rw [emitSample_ne_timestamp _ _ hf, passFilter_false_of_hasNaN h]
      simp

/-- C5: despite the reverse iteration with prepending used to build the output
list, the externally returned list is the listener's records in file order:
the i-th output map is the i-th admitted record's map. -/
theorem C5_output_preserves_file_order (ms : List Mesg) :
    decodeSamples ms = (runListener ms).map emitSample ∧
      ∀ i : Nat, (decodeSamples ms)[i]? = ((runListener ms)[i]?).map emitSample := by
  have h : decodeSamples ms = (runListener ms).map emitSample := buildResultList_eq_map _
  refine ⟨h, fun i => ?_⟩
  rw [h, List.getElem?_map]

/-- C6: whenever `CheckIntegrity` reports false the call returns exactly the
`error_integrity_check_failed` atom — for every possible `Read` behaviour, so
decode is never attempted and no sample is emitted. -/
theorem C6_integrity_failure_returns_error (sdk : FitSDK) (buf : List Nat)
    (h : sdk.integrity buf = false) :
    decode_fit_file_nif sdk buf = DecodeResult.error_integrity_check_failed := by
  simp [decode_fit_file_nif, streamRest, h]

/-- Witness for C6 on the empty buffer. -/
theorem C6_integrity_failure_returns_error_witness :
    sdkReject.integrity [] = false ∧
      decode_fit_file_nif sdkReject [] = DecodeResult.error_integrity_check_failed :=
  ⟨rfl, C6_integrity_failure_returns_error sdkReject [] rfl⟩

/-- C7: if the integrity check passes but `Read` throws, the call returns
exactly the `error_sdk_exception` atom: the records the listener accumulated
before the exception are discarded, no partial list is returned. -/
theorem C7_decode_exception_returns_error (sdk : FitSDK) (buf : List Nat)
    (hok : sdk.integrity buf = true) (hthrow : (sdk.readMesgs buf).2 = true) :
    decode_fit_file_nif sdk buf = DecodeResult.error_sdk_exception := by
  simp [decode_fit_file_nif, readPass, streamRest, hok, hthrow]

/-- Witness for C7. -/
theorem C7_decode_exception_returns_error_witness :
    sdkThrow.integrity [] = true ∧ (sdkThrow.readMesgs []).2 = true ∧
      decode_fit_file_nif sdkThrow [] = DecodeResult.error_sdk_exception :=
  ⟨rfl, rfl, C7_decode_exception_returns_error sdkThrow [] rfl rfl⟩

/-- C8 counterexample: raw timestamp 4000000000 is valid, but the emitted
timestamp is `(4000000000 + 631065600) % 2 ^ 32 = 336098304`, not the plain
sum `4000000000 + 631065600`. -/
theorem C8_timestamp_offset_counterexample :
    (tsOnlyMesg 4000000000).valid FieldName.timestamp = true ∧
      (tsOnlyMesg 4000000000).get FieldName.timestamp = 4000000000 ∧
      lookupAt (decodeSamples [Mesg.mk FIT_MESG_NUM_RECORD (tsOnlyMesg 4000000000)]) 0
          FieldName.timestamp = some 336098304 ∧
      (336098304 : Nat) ≠ 4000000000 + 631065600 :=
  ⟨rfl, rfl, rfl, by decide⟩

/-- C8 amended: for every Record message with a valid timestamp, the emitted
sample's timestamp is the raw value plus 631065600 reduced mod `2 ^ 32` (plain
addition whenever the sum stays below `2 ^ 32`, as in the spec scenario, which
emits exactly one sample with timestamp `1000000000 + 631065600` and no
`heart_rate` key). -/
theorem C8_timestamp_offset_amended :
    (∀ (m : RecordMesg) (s : Sample), m.valid FieldName.timestamp = true →
        s ∈ decodeSamples [Mesg.mk FIT_MESG_NUM_RECORD m] →
        s FieldName.timestamp = some ((m.get FieldName.timestamp + 631065600) % 2 ^ 32)) ∧
      lookupAt (decodeSamples [scenarioMesg]) 0 FieldName.timestamp =
        some (1000000000 + 631065600) ∧
      lookupAt (decodeSamples [scenarioMesg]) 0 FieldName.heart_rate = none ∧
      (decodeSamples [scenarioMesg]).length = 1 := by
  refine ⟨?_, rfl, rfl, rfl⟩
  intro m s hvalid hs
  rw [decodeSamples_single] at hs
  by_cases hts : processRecordMessage m FieldName.timestamp = FIT_DATE_TIME_INVALID
  · rw [if_pos hts] at hs
    exact absurd hs (List.not_mem_nil s)
  · rw [if_neg hts] at hs
    rcases List.mem_singleton.mp hs with rfl
    rw [emitSample_timestamp, processRecordMessage_timestamp, hvalid]
    simp

/-- C9: `CheckIntegrity` mutates nothing the decode depends on: after a passing
integrity check the call equals the read pass on a fresh stream at offset 0
over the identical buffer (the `clear(); seekg(0)` rewind). -/
theorem C9_integrity_check_preserves_decode (sdk : FitSDK) (buf : List Nat)
    (hok : sdk.integrity buf = true) :
    decode_fit_file_nif sdk buf = readPass sdk ⟨buf, 0⟩ := by
  simp [decode_fit_file_nif, streamRest, hok]

/-- Witness for C9. -/
theorem C9_integrity_check_preserves_decode_witness :
    sdkAccept.integrity [] = true ∧
      decode_fit_file_nif sdkAccept [] = readPass sdkAccept ⟨[], 0⟩ :=
  ⟨rfl, C9_integrity_check_preserves_decode sdkAccept [] rfl⟩

/-- C10: the epoch offset is added in 32-bit unsigned arithmetic (mod `2 ^ 32`)
and row admission compares the post-offset value against the sentinel, so the
Record message with the valid, non-sentinel raw timestamp
`2 ^ 32 - 1 - 631065600` is discarded. -/
theorem C10_timestamp_offset_wraparound :
    (∀ m : RecordMesg, processRecordMessage m FieldName.timestamp =
        if m.valid FieldName.timestamp then (m.get FieldName.timestamp + 631065600) % 2 ^ 32
        else FIT_DATE_TIME_INVALID) ∧
      (∀ m : RecordMesg, decodeSamples [Mesg.mk FIT_MESG_NUM_RECORD m] =
        if processRecordMessage m FieldName.timestamp = FIT_DATE_TIME_INVALID then []
        else [emitSample (processRecordMessage m)]) ∧
      (tsOnlyMesg (2 ^ 32 - 1 - 631065600)).valid FieldName.timestamp = true ∧
      (tsOnlyMesg (2 ^ 32 - 1 - 631065600)).get FieldName.timestamp ≠ FIT_UINT32_INVALID ∧
      decodeSamples [Mesg.mk FIT_MESG_NUM_RECORD (tsOnlyMesg (2 ^ 32 - 1 - 631065600))] = [] :=
  ⟨fun m => processRecordMessage_timestamp m, fun m => decodeSamples_single m,
    rfl, by decide, rfl⟩
